import Mathlib

/-!
Verification of the Fast-Node-Switcher extension: a shallow embedding of its
version-manager adapters (nvm, nvm-windows, fnm, volta, mise, pnpm), the tool
detector, and the config-file (.nvmrc) handler, with theorems settling the
specified behavioural properties.

JavaScript strings are modelled as Lean strings; the regular expressions used
by the source are hand-compiled to character-list parsers with the same
(leftmost, greedy) semantics; `path.join` is modelled as slash concatenation;
each external-process invocation is modelled by an explicit input of type
`Except Unit String` (the captured stdout, or a failure).
-/

namespace FastNodeSwitcher

/-- JS whitespace as used by String.trim and the regex class backslash-s,
restricted to the ASCII characters that occur in tool output. -/
def jsSpace (c : Char) : Bool :=
  c = ' ' || c = '\t' || c = '\n' || c = '\r'

/-- Character-list version of JS String.trim. -/
def trimCh (cs : List Char) : List Char :=
  ((cs.dropWhile jsSpace).reverse.dropWhile jsSpace).reverse

/-- JS s.split(backslash-n): cut a character list at every newline, keeping
empty segments, as String.prototype.split does. -/
def splitOnNl : List Char → List (List Char)
  | [] => [[]]
  | c :: rest =>
    match splitOnNl rest with
    | r :: rs => if c = '\n' then [] :: r :: rs else (c :: r) :: rs
    | [] => [[c]]

/-- Maximal run of decimal digits at the front of a character list, with the
remainder (the greedy semantics of a digits-plus regex atom). -/
def takeDigits : List Char → List Char × List Char
  | [] => ([], [])
  | c :: rest =>
    if c.isDigit then
      let p := takeDigits rest
      (c :: p.1, p.2)
    else ([], c :: rest)

/-- Match the regex digits dot digits dot digits at the start of a character
list, returning the matched text.  Digit runs and the literal dot are
disjoint, so the greedy match needs no backtracking. -/
def matchSemverAt (cs : List Char) : Option (List Char) :=
  let p1 := takeDigits cs
  if p1.1 = [] then none else
  match p1.2 with
  | '.' :: r2 =>
    let p2 := takeDigits r2
    if p2.1 = [] then none else
    match p2.2 with
    | '.' :: r4 =>
      let p3 := takeDigits r4
      if p3.1 = [] then none else
      some (p1.1 ++ '.' :: p2.1 ++ '.' :: p3.1)
    | _ => none
  | _ => none

/-- Unanchored search for the regex digits dot digits dot digits: leftmost
match, as JS String.prototype.match performs. -/
def searchSemver : List Char → Option (List Char)
  | [] => none
  | c :: rest =>
    match matchSemverAt (c :: rest) with
    | some m => some m
    | none => searchSemver rest

/-- Unanchored search for optional letter v followed by the semver pattern,
returning the capture group (the digits part).  When the position holds a v
that is not followed by a full semver, the empty alternative of the optional
v also fails there, so the search advances one character, matching JS regex
backtracking. -/
def searchVSemver : List Char → Option (List Char)
  | [] => none
  | c :: rest =>
    match (if c = 'v' then matchSemverAt rest else matchSemverAt (c :: rest)) with
    | some m => some m
    | none => searchVSemver rest

/-- Unanchored search for the literal text node at-sign followed by the
semver pattern, returning the capture group. -/
def searchNodeSemver : List Char → Option (List Char)
  | [] => none
  | c :: rest =>
    match
      (if List.isPrefixOf "node@".toList (c :: rest) then
        matchSemverAt ((c :: rest).drop 5)
      else none) with
    | some m => some m
    | none => searchNodeSemver rest

/-- JS s.replace of anchored optional-v with the empty string: strip one
leading letter v, as used throughout the source. -/
def stripLeadingV (s : String) : String :=
  match s.toList with
  | 'v' :: rest => String.mk rest
  | _ => s

/-- JS s.replace of anchored star followed by whitespace-star with the empty
string (the current-version marker stripping of the fnm and pnpm list
parsers). -/
def stripStarMarker (s : String) : String :=
  match s.toList with
  | '*' :: rest => String.mk (rest.dropWhile jsSpace)
  | _ => s

/-- True when the anchored regex digits dot digits dot digits tests
positively on the string (the version acceptance test of the source). -/
def startsSemver (s : String) : Bool :=
  (matchSemverAt s.toList).isSome

/-- JS a.includes(b): substring containment. -/
def jsIncludes (s sub : String) : Bool :=
  (List.range (s.toList.length + 1)).any
    (fun i => List.isPrefixOf sub.toList (s.toList.drop i))

/-- First-occurrence deduplication, the semantics of the JS spread of a Set
built from an array. -/
def jsSetDedup : List String → List String
  | [] => []
  | x :: xs => x :: jsSetDedup (xs.filter (fun y => y ≠ x))
termination_by l => l.length
decreasing_by
  simp only [List.length_cons]
  exact Nat.lt_succ_of_le (xs.length_filter_le _)

/-- Split a raw stdout into trimmed lines, the common first two steps of
every list parser in the source. -/
def trimmedLines (stdout : String) : List (List Char) :=
  (splitOnNl stdout.toList).map trimCh

/-! ## Installed-version list parsing, one function per adapter -/

/-- NvmManager.getInstalledVersions line pipeline: trimmed lines, filter on
the unanchored optional-v semver regex, extract its capture group, drop
nulls.  The same pipeline is reused by nvm getAvailableVersions.  Note the
source applies no deduplication here. -/
def nvmParseVersionLines (stdout : String) : List String :=
  ((trimmedLines stdout).filter (fun l => (searchVSemver l).isSome)).filterMap
    (fun l => (searchVSemver l).map (fun cs => String.mk cs))

/-- NvmManager.getInstalledVersions over the result of invoking the nvm list
subcommand: parse on success, empty list on failure. -/
def nvmGetInstalledVersions (result : Except Unit String) : List String :=
  match result with
  | Except.error _ => []
  | Except.ok stdout => nvmParseVersionLines stdout

/-- NvmWindowsManager.getInstalledVersions line filter: the anchored regex
optional star, whitespace run, semver.  When the leading star fails to yield
a match the empty alternative of the optional star also fails (a star is
neither whitespace nor a digit), so the test is deterministic. -/
def nvmWinLineTest (cs : List Char) : Bool :=
  let afterStar := match cs with | '*' :: r => r | _ => cs
  (matchSemverAt (afterStar.dropWhile jsSpace)).isSome

/-- NvmWindowsManager.getInstalledVersions line pipeline: trimmed lines,
anchored star-whitespace-semver filter, unanchored semver group extraction.
No deduplication in the source. -/
def nvmWinParseInstalled (stdout : String) : List String :=
  ((trimmedLines stdout).filter nvmWinLineTest).filterMap
    (fun l => (searchSemver l).map (fun cs => String.mk cs))

/-- NvmWindowsManager.getInstalledVersions over the command result. -/
def nvmWinGetInstalledVersions (result : Except Unit String) : List String :=
  match result with
  | Except.error _ => []
  | Except.ok stdout => nvmWinParseInstalled stdout

/-- PnpmManager.getInstalledVersions line pipeline
(src/src/managers/pnpm-manager.js): trimmed nonempty lines, strip the
leading star marker and re-trim, keep truthy strings passing the anchored
semver test, then deduplicate via a JS Set. -/
def pnpmParseInstalled (stdout : String) : List String :=
  let vs :=
    ((((trimmedLines stdout).filter (fun l => l.length > 0)).map
      (fun l => String.mk (trimCh (stripStarMarker (String.mk l)).toList))).filter
      (fun v => v ≠ "" && startsSemver v))
  jsSetDedup vs

/-- PnpmManager.getInstalledVersions over the command result. -/
def pnpmGetInstalledVersions (result : Except Unit String) : List String :=
  match result with
  | Except.error _ => []
  | Except.ok stdout => pnpmParseInstalled stdout

/-- FnmManager.getInstalledVersions line pipeline: trimmed nonempty lines,
strip the star marker, keep the first whitespace-separated token, strip one
leading v, keep truthy strings passing the anchored semver test, deduplicate
via a JS Set. -/
def fnmParseInstalled (stdout : String) : List String :=
  let vs :=
    ((((trimmedLines stdout).filter (fun l => l.length > 0)).map
      (fun l =>
        let noStar := (stripStarMarker (String.mk l)).toList
        let token := noStar.takeWhile (fun c => !(jsSpace c))
        stripLeadingV (String.mk token))).filter
      (fun v => v ≠ "" && startsSemver v))
  jsSetDedup vs

/-- FnmManager.getInstalledVersions over the command result. -/
def fnmGetInstalledVersions (result : Except Unit String) : List String :=
  match result with
  | Except.error _ => []
  | Except.ok stdout => fnmParseInstalled stdout

/-- VoltaManager.getInstalledVersions line pipeline: trimmed lines containing
the text node at-sign, extract the node-at semver capture group, drop nulls,
deduplicate via a JS Set. -/
def voltaParseInstalled (stdout : String) : List String :=
  let vs :=
    ((trimmedLines stdout).filter (fun l => jsIncludes (String.mk l) "node@")).filterMap
      (fun l => (searchNodeSemver l).map (fun cs => String.mk cs))
  jsSetDedup vs

/-- VoltaManager.getInstalledVersions over the command result. -/
def voltaGetInstalledVersions (result : Except Unit String) : List String :=
  match result with
  | Except.error _ => []
  | Except.ok stdout => voltaParseInstalled stdout

/-- One element of the JSON array printed by the mise ls subcommand. -/
structure MiseEntry where
  version : String
deriving DecidableEq, Repr

/-- MiseManager.getInstalledVersions: a successful run yields a parsed JSON
array whose version fields are collected, dropping falsy (empty) ones; a
command or JSON.parse failure yields the empty list.  No deduplication. -/
def miseGetInstalledVersions (result : Except Unit (List MiseEntry)) : List String :=
  match result with
  | Except.error _ => []
  | Except.ok entries => (entries.map (fun e => e.version)).filter (fun v => v ≠ "")

/-! ## Current-version queries (getCurrentVersion), one per cited adapter -/

/-- NvmManager.getCurrentVersion: trim the nvm current stdout, strip one
leading v, and map the sentinel outputs none and system to null; a command
failure degrades to null. -/
def nvmGetCurrentVersion (result : Except Unit String) : Option String :=
  match result with
  | Except.error _ => none
  | Except.ok stdout =>
    let version := stripLeadingV (String.mk (trimCh stdout.toList))
    if version = "none" || version = "system" then none else some version

/-- MiseManager.getCurrentVersion: a successful run returns the trimmed
stdout verbatim, with no validation; a command failure degrades to null. -/
def miseGetCurrentVersion (result : Except Unit String) : Option String :=
  match result with
  | Except.error _ => none
  | Except.ok stdout => some (String.mk (trimCh stdout.toList))

/-- The validation the fnm adapter applies to each candidate version text:
trim, strip one leading v, accept when truthy and passing the anchored
semver test. -/
def fnmValidated (text : String) : Option String :=
  let v := stripLeadingV (String.mk (trimCh text.toList))
  if v ≠ "" && startsSemver v then some v else none

/-- FnmManager.getCurrentVersion: try the fnm current stdout, then the
workspace .node-version file, then the default alias file, each validated;
null when all three sources fail. -/
def fnmGetCurrentVersion (cur : Except Unit String)
    (nodeVersionFile : Option String) (defaultAliasFile : Option String) :
    Option String :=
  let fromCur := match cur with
    | Except.error _ => none
    | Except.ok stdout => fnmValidated stdout
  match fromCur with
  | some v => some v
  | none =>
    let fromFile := match nodeVersionFile with
      | some content => fnmValidated content
      | none => none
    match fromFile with
    | some v => some v
    | none =>
      match defaultAliasFile with
      | some content => fnmValidated content
      | none => none

/-! ## Remote (available) version listings (getAvailableVersions) -/

/-- NvmManager.getAvailableVersions: the nvm line pipeline followed by
slice(0, 20); empty on failure. -/
def nvmGetAvailableVersions (result : Except Unit String) : List String :=
  match result with
  | Except.error _ => []
  | Except.ok stdout => (nvmParseVersionLines stdout).take 20

/-- FnmManager.getAvailableVersions: trimmed nonempty lines, strip one
leading v, keep truthy strings passing the anchored semver test,
slice(0, 20); empty on failure. -/
def fnmGetAvailableVersions (result : Except Unit String) : List String :=
  match result with
  | Except.error _ => []
  | Except.ok stdout =>
    (((((trimmedLines stdout).filter (fun l => l.length > 0)).map
      (fun l => stripLeadingV (String.mk l))).filter
      (fun v => v ≠ "" && startsSemver v)).take 20)

/-- PnpmManager.getAvailableVersions (src/src/managers/pnpm-manager.js):
trimmed nonempty lines passing the anchored semver test, slice(0, 20);
empty on failure. -/
def pnpmGetAvailableVersions (result : Except Unit String) : List String :=
  match result with
  | Except.error _ => []
  | Except.ok stdout =>
    ((((trimmedLines stdout).filter (fun l => l.length > 0)).map
      (fun l => String.mk l)).filter
      (fun v => v ≠ "" && startsSemver v)).take 20

/-- NvmWindowsManager.getAvailableVersions: trimmed lines passing the
anchored semver test, unanchored semver group extraction, slice(0, 20);
empty on failure. -/
def nvmWinGetAvailableVersions (result : Except Unit String) : List String :=
  match result with
  | Except.error _ => []
  | Except.ok stdout =>
    (((trimmedLines stdout).filter (fun l => (matchSemverAt l).isSome)).filterMap
      (fun l => (searchSemver l).map (fun cs => String.mk cs))).take 20

/-- MiseManager.getAvailableVersions: trim the stdout, split on newlines,
drop falsy (empty) lines, slice(0, 20); empty on failure. -/
def miseGetAvailableVersions (result : Except Unit String) : List String :=
  match result with
  | Except.error _ => []
  | Except.ok stdout =>
    (((splitOnNl (trimCh stdout.toList)).map (fun cs => String.mk cs)).filter
      (fun v => v ≠ "")).take 20

/-- One release record of the Node.js distribution index fetched by the
volta adapter: its version text and whether the lts field is truthy. -/
structure NodeRelease where
  version : String
  lts : Bool
deriving DecidableEq, Repr

/-- VoltaManager.getAvailableVersions: on a successful fetch and JSON parse,
keep releases whose lts field is truthy, strip one leading v from each
version, slice(0, 20); any network or parse failure resolves to the empty
list. -/
def voltaGetAvailableVersions (result : Except Unit (List NodeRelease)) : List String :=
  match result with
  | Except.error _ => []
  | Except.ok releases =>
    (((releases.filter (fun r => r.lts)).map
      (fun r => stripLeadingV r.version)).take 20)

/-! ## Config-file handler (NvmrcHandler) -/

/-- NvmrcHandler.readNvmrc normalization: trim the file content and strip
one leading v. -/
def normalizeVersion (content : String) : String :=
  stripLeadingV (String.mk (trimCh content.toList))

/-- JS c.startsWith(p): character-sequence test that p occurs at the start
of c. -/
def startsWithChars : List Char → List Char → Bool
  | _, [] => true
  | [], _ :: _ => false
  | x :: xs, y :: ys => x = y && startsWithChars xs ys

/-- NvmrcHandler.isVersionMatching: the falsy guard on the current version
returns false both for null and for the empty string (JS truthiness);
otherwise the JS startsWith test of the pin against the current version. -/
def isVersionMatching (nvmrcVersion : String) (currentVersion : Option String) : Bool :=
  match currentVersion with
  | none => false
  | some c => if c = "" then false else startsWithChars c.toList nvmrcVersion.toList

/-- NvmrcHandler.findNvmrc: directories are segment lists ([] is the
filesystem root), dirname drops the last segment, and hasNvmrc d models
fs.existsSync(path.join(d, .nvmrc)).  The loop runs while the current
directory differs from the root and returns the joined pin-file path of the
first hit. -/
def findNvmrc (hasNvmrc : List String → Bool) (startDir : List String) :
    Option (List String) :=
  if h : startDir = [] then none
  else if hasNvmrc startDir then some (startDir ++ [".nvmrc"])
  else findNvmrc hasNvmrc startDir.dropLast
termination_by startDir.length
decreasing_by
  simp only [List.length_dropLast]
  have h0 : startDir.length ≠ 0 := fun hz => h (List.length_eq_zero.mp hz)
  omega

/-! ## Executable detection (detect) -/

/-- path.join modelled as slash concatenation (the Unix case; separator
choice is irrelevant to the properties proved). -/
def pathJoin (a b : String) : String := a ++ "/" ++ b

/-- Inputs a detect probe depends on: the host platform, the user-configured
explicit path for the tool, the filesystem (fs.existsSync), and the result
of the where/which PATH lookup. -/
structure DetectEnv where
  isWin : Bool
  customPath : Option String
  existsFile : String → Bool
  whichResult : Except Unit String

/-- The fields detect mutates on the adapter: the availability flag and the
recorded invocation string. -/
structure DetectResult where
  isAvailable : Bool
  command : Option String
deriving DecidableEq, Repr

/-- First path of a list that exists on the filesystem (the well-known
install-location loop shared by every adapter). -/
def firstExisting (existsFile : String → Bool) : List String → Option String
  | [] => none
  | p :: ps => if existsFile p then some p else firstExisting existsFile ps

/-- The quoting the adapters apply when recording a resolved path as the
invocation string. -/
def quoteCmd (p : String) : String := "\"" ++ p ++ "\""

/-- stdout.trim().split(newline)[0], the first-line extraction applied to a
where/which result. -/
def firstLineOfTrimmed (s : String) : String :=
  String.mk ((trimCh s.toList).takeWhile (fun c => c ≠ '\n'))

/-- NvmManager.getNvmPaths: the fixed well-known locations of nvm.sh. -/
def getNvmPaths (nvmDir homeDir : String) : List String :=
  [ pathJoin nvmDir "nvm.sh",
    pathJoin homeDir ".nvm/nvm.sh",
    "/usr/local/opt/nvm/nvm.sh",
    pathJoin homeDir ".config/nvm/nvm.sh" ]

/-- NvmManager.detect: refuse on Windows; then the user-configured path,
then the well-known locations.  The nvm adapter performs no PATH lookup at
all (nvm is a shell function, not an executable), so the result never
depends on the whichResult field. -/
def nvmDetect (nvmDir homeDir : String) (env : DetectEnv) : DetectResult :=
  let viaPaths :=
    match firstExisting env.existsFile (getNvmPaths nvmDir homeDir) with
    | some p => { isAvailable := true, command := some p }
    | none => { isAvailable := false, command := none }
  if env.isWin then { isAvailable := false, command := none }
  else
    match env.customPath with
    | some p =>
      if env.existsFile p then { isAvailable := true, command := some p }
      else viaPaths
    | none => viaPaths

/-- MiseManager.getMisePaths: the fixed well-known locations of the mise
executable per platform. -/
def getMisePaths (isWin : Bool) (homeDir : String) : List String :=
  if isWin then
    [ pathJoin homeDir "AppData/Local/Microsoft/WinGet/Links/mise.exe",
      pathJoin homeDir "AppData/Local/mise/mise.exe",
      pathJoin homeDir ".local/bin/mise.exe",
      "C:/Program Files/mise/mise.exe",
      "C:/ProgramData/chocolatey/bin/mise.exe" ]
  else
    [ pathJoin homeDir ".local/bin/mise",
      "/usr/local/bin/mise",
      "/usr/bin/mise",
      "/opt/homebrew/bin/mise",
      "/home/linuxbrew/.linuxbrew/bin/mise" ]

/-- MiseManager.detect: the user-configured path, then the well-known
locations, then a where/which PATH lookup whose first stdout line, when
truthy, is taken; the first hit wins and is recorded quoted; otherwise
unavailable. -/
def miseDetect (homeDir : String) (env : DetectEnv) : DetectResult :=
  let viaWhich :=
    match env.whichResult with
    | Except.ok stdout =>
      let foundPath := firstLineOfTrimmed stdout
      if foundPath ≠ "" then { isAvailable := true, command := some (quoteCmd foundPath) }
      else { isAvailable := false, command := none }
    | Except.error _ => { isAvailable := false, command := none }
  let viaPaths :=
    match firstExisting env.existsFile (getMisePaths env.isWin homeDir) with
    | some p => { isAvailable := true, command := some (quoteCmd p) }
    | none => viaWhich
  match env.customPath with
  | some p =>
    if env.existsFile p then { isAvailable := true, command := some (quoteCmd p) }
    else viaPaths
  | none => viaPaths

/-! ## Tool detector (ToolDetector) -/

/-- ToolDetector.detectAll manager list: priority order, with nvm-windows
substituted for nvm on Windows. -/
def managerNames (isWin : Bool) : List String :=
  if isWin then ["nvm-windows", "fnm", "volta", "mise", "pnpm"]
  else ["nvm", "fnm", "volta", "mise", "pnpm"]

/-- ToolDetector.detectAll: detection success per manager name is abstracted
as the predicate detects (each adapter's detect is deterministic in a fixed
environment).  preferredTool none models the auto setting.  A configured
preferred tool is looked up by exact name or name inclusion and tried
first; otherwise (or when it fails) the managers are probed in priority
order and the first success is selected. -/
def detectAll (isWin : Bool) (preferredTool : Option String)
    (detects : String → Bool) : Option String :=
  let managers := managerNames isWin
  let viaPref :=
    match preferredTool with
    | some pref =>
      match managers.find? (fun n => n == pref || jsIncludes n pref) with
      | some m => if detects m then some m else none
      | none => none
    | none => none
  match viaPref with
  | some m => some m
  | none => managers.find? detects

/-- The mutable detector state: its manager list and the active manager. -/
structure DetectorState where
  managers : List String
  activeManager : Option String
deriving DecidableEq, Repr

/-- ToolDetector.switchManager: find the named manager by exact name,
re-run its detect, and commit the switch only on success; the returned flag
reports success and the state is unchanged on failure. -/
def switchManager (st : DetectorState) (managerName : String)
    (detects : String → Bool) : Bool × DetectorState :=
  match st.managers.find? (fun m => m == managerName) with
  | some m =>
    if detects m then (true, { st with activeManager := some m })
    else (false, st)
  | none => (false, st)

/-! ## setVersion effect traces -/

/-- The two scopes a set operation can request. -/
inductive Scope where
  | globalScope
  | localScope
deriving DecidableEq, Repr

/-- Observable effects of a setVersion run: side-channel warning messages,
files written (path, content), and external commands invoked, in order. -/
structure SetEffects where
  warnings : List String
  filesWritten : List (String × String)
  commands : List String
deriving DecidableEq, Repr

/-- NvmWindowsManager.setVersion: local scope additionally writes a .nvmrc
hint file (with the raw, unstripped version) into the workspace root when a
workspace is open; both scopes then invoke the nvm use command with the
v-stripped version.  cmd is the recorded invocation string. -/
def nvmWinSetVersionEffects (cmd version : String) (scope : Scope)
    (workspace : Option String) : SetEffects :=
  let files :=
    match scope, workspace with
    | Scope.localScope, some w => [(pathJoin w ".nvmrc", version)]
    | _, _ => []
  { warnings := [],
    filesWritten := files,
    commands := [cmd ++ " use " ++ stripLeadingV version] }

/-- PnpmManager.setVersion: a local-scope request only adds a side-channel
warning; both scopes list the installed versions, install the version if
missing, optionally prompt on Windows (promptContinue is the user reply;
false cancels with an error before the switch), and invoke the global env
use command.  Returns the effect trace and whether the switch command was
reached. -/
def pnpmSetVersionEffects (cmd version : String) (scope : Scope)
    (installed : List String) (isWin : Bool) (promptContinue : Bool) :
    SetEffects × Bool :=
  let warns :=
    if scope = Scope.localScope then
      ["pnpm env only supports global scope. The version will be set globally."]
    else []
  let clean := stripLeadingV version
  let listCmd := cmd ++ " env list"
  let installCmds :=
    if installed.contains clean then [] else [cmd ++ " env add --global " ++ clean]
  if isWin && !promptContinue then
    ({ warnings := warns, filesWritten := [],
       commands := listCmd :: installCmds }, false)
  else
    ({ warnings := warns, filesWritten := [],
       commands := listCmd :: installCmds ++ [cmd ++ " env use --global " ++ clean] }, true)

/-- FnmManager.setVersion: the scope argument is ignored entirely — the
adapter always lists installed versions, installs the version if missing,
and writes the v-stripped version into the workspace .node-version file,
failing when no workspace is open.  Returns the effect trace and success. -/
def fnmSetVersionEffects (cmd version : String) (scope : Scope)
    (installed : List String) (workspace : Option String) :
    SetEffects × Bool :=
  let clean := stripLeadingV version
  let listCmd := cmd ++ " list"
  let installCmds :=
    if installed.contains clean then [] else [cmd ++ " install " ++ clean]
  match workspace with
  | none =>
    ({ warnings := [], filesWritten := [], commands := listCmd :: installCmds }, false)
  | some w =>
    ({ warnings := [],
       filesWritten := [(pathJoin w ".node-version", clean)],
       commands := listCmd :: installCmds }, true)

/-- A detection environment in which no well-known file exists and no custom
path is configured, but the PATH lookup reports a hit. -/
def pathOnlyEnv : DetectEnv :=
  { isWin := false,
    customPath := none,
    existsFile := fun _ => false,
    whichResult := Except.ok "/usr/local/bin/nvm" }

/-! ## Helper lemmas -/

theorem mem_of_mem_jsSetDedup {a : String} :
    ∀ {l : List String}, a ∈ jsSetDedup l → a ∈ l := by
  intro l
  induction l using jsSetDedup.induct with
  | case1 =>
    intro h
    simp [jsSetDedup] at h
  | case2 x xs ih =>
    intro h
    rw [jsSetDedup] at h
    rcases List.mem_cons.mp h with h | h
    · simp [h]
    · exact List.mem_cons_of_mem _ (List.mem_of_mem_filter (ih h))

theorem jsSetDedup_nodup : ∀ l : List String, (jsSetDedup l).Nodup := by
  intro l
  induction l using jsSetDedup.induct with
  | case1 => simp [jsSetDedup]
  | case2 x xs ih =>
    rw [jsSetDedup]
    refine List.nodup_cons.mpr ⟨?_, ih⟩
    intro hmem
    have hin := mem_of_mem_jsSetDedup hmem
    have := List.of_mem_filter hin
    simp at this

theorem startsWithChars_iff (c p : List Char) :
    startsWithChars c p = true ↔ ∃ rest, c = p ++ rest := by
  induction p generalizing c with
  | nil =>
    simp [startsWithChars]
  | cons y ys ih =>
    cases c with
    | nil =>
      simp [startsWithChars]
    | cons x xs =>
      simp only [startsWithChars, Bool.and_eq_true, decide_eq_true_eq, ih,
        List.cons_append, List.cons.injEq]
      constructor
      · rintro ⟨hxy, rest, hrest⟩
        exact ⟨rest, hxy, hrest⟩
      · rintro ⟨rest, hxy, hrest⟩
        exact ⟨hxy, rest, hrest⟩

/-! ## Claim theorems -/

/-- C9 counterexample: the falsy guard makes the handler report the empty
current version unsatisfied even for the empty pin, although the empty
string does start with the empty pin as a character sequence — and an empty
(non-null) current version is reachable, e.g. from the mise adapter on
empty stdout. -/
theorem isVersionMatching_empty_current :
    isVersionMatching "" (some "") = false ∧
    startsWithChars "".toList "".toList = true ∧
    miseGetCurrentVersion (Except.ok "") = some "" := by
  exact ⟨by decide, by decide, by decide⟩

/-- C9 (amended): pin satisfaction is plain character-string prefix matching
except that a falsy current version — null or the empty string — is always
reported unsatisfied; for every non-empty current version c the handler
reports true exactly when the character sequence of c starts with the pin,
so in particular the pin 2 is reported satisfied by the current version
25.0.0. -/
theorem isVersionMatching_prefix_characterisation (p c : String) :
    isVersionMatching p none = false ∧
    isVersionMatching p (some "") = false ∧
    (c ≠ "" →
      (isVersionMatching p (some c) = true ↔ ∃ rest, c.toList = p.toList ++ rest)) := by
  refine ⟨rfl, by simp [isVersionMatching], ?_⟩
  intro hc
  simpa [isVersionMatching, hc] using startsWithChars_iff c.toList p.toList

/-- C9 witness: the pin 2 is satisfied by the non-empty current version
25.0.0 under the character-sequence reading, and a null current version is
not. -/
theorem isVersionMatching_prefix_characterisation_witness :
    (∃ rest, "25.0.0".toList = "2".toList ++ rest) ∧
    isVersionMatching "2" none = false := by
  exact ⟨((isVersionMatching_prefix_characterisation "2" "25.0.0").2.2
      (by decide)).mp (by decide),
    (isVersionMatching_prefix_characterisation "2" "25.0.0").1⟩

/-- C10: the upward pin-file search never examines the filesystem root —
every returned match comes from a directory strictly below the root, and
when the root directory is the only one holding a .nvmrc the search returns
null from every start directory. -/
theorem findNvmrc_never_probes_root (hasNvmrc : List String → Bool) :
    (∀ startDir p, findNvmrc hasNvmrc startDir = some p →
      ∃ d, d ≠ [] ∧ hasNvmrc d = true ∧ p = d ++ [".nvmrc"]) ∧
    ((∀ d, hasNvmrc d = true → d = []) →
      ∀ startDir, findNvmrc hasNvmrc startDir = none) := by
  have sound : ∀ startDir p, findNvmrc hasNvmrc startDir = some p →
      ∃ d, d ≠ [] ∧ hasNvmrc d = true ∧ p = d ++ [".nvmrc"] := by
    intro startDir
    induction startDir using findNvmrc.induct hasNvmrc with
    | case1 =>
      intro p hp
      rw [findNvmrc] at hp
      simp at hp
    | case2 d hne hhit =>
      intro p hp
      rw [findNvmrc] at hp
      simp [hne, hhit] at hp
      exact ⟨d, hne, hhit, hp.symm⟩
    | case3 d hne hmiss ih =>
      intro p hp
      rw [findNvmrc] at hp
      simp [hne, hmiss] at hp
      exact ih p hp
  refine ⟨sound, ?_⟩
  intro honly startDir
  cases hfind : findNvmrc hasNvmrc startDir with
  | none => rfl
  | some p =>
    rcases sound startDir p hfind with ⟨d, hne, hhit, _⟩
    exact absurd (honly d hhit) hne

/-- C10 witness: with a .nvmrc present only in the root directory, a search
from the directory a/b returns null. -/
theorem findNvmrc_never_probes_root_witness :
    findNvmrc (fun d => d == ([] : List String)) ["a", "b"] = none := by
  exact (findNvmrc_never_probes_root (fun d => d == ([] : List String))).2
    (fun d hd => by simpa using hd) ["a", "b"]

/-- C7: switchManager leaves the previous active adapter unchanged and
returns false when the name matches no adapter or the matched adapter fails
to re-detect, and on success returns true with the named adapter active and
the manager list untouched. -/
theorem switchManager_failure_preserves_state (st : DetectorState)
    (name : String) (detects : String → Bool) :
    ((switchManager st name detects).1 = false → (switchManager st name detects).2 = st) ∧
    ((switchManager st name detects).1 = true →
      (switchManager st name detects).2.activeManager = some name ∧
      (switchManager st name detects).2.managers = st.managers) ∧
    (st.managers.find? (fun m => m == name) = none →
      (switchManager st name detects).1 = false) ∧
    (∀ m, st.managers.find? (fun m2 => m2 == name) = some m → detects m = false →
      (switchManager st name detects).1 = false) ∧
    (∀ m, st.managers.find? (fun m2 => m2 == name) = some m → detects m = true →
      (switchManager st name detects).1 = true) := by
  cases hfind : st.managers.find? (fun m => m == name) with
  | none =>
    refine ⟨fun _ => by simp [switchManager, hfind], ?_, fun _ => by simp [switchManager, hfind],
      ?_, ?_⟩
    · intro htrue
      simp [switchManager, hfind] at htrue
    · intro m hm
      simp at hm
    · intro m hm
      simp at hm
  | some m =>
    have hname : m = name := by
      have := List.find?_some hfind
      simpa [beq_iff_eq] using this
    subst hname
    cases hdet : detects m with
    | false =>
      refine ⟨fun _ => by simp [switchManager, hfind, hdet], ?_, fun hnone => ?_, ?_, ?_⟩
      · intro htrue
        simp [switchManager, hfind, hdet] at htrue
      · simp at hnone
      · intro m2 hm2 _
        simp [switchManager, hfind, hdet]
      · intro m2 hm2 hdet2
        have h2 : m2 = m := by simpa using hm2.symm
        rw [h2, hdet] at hdet2
        exact absurd hdet2 (by simp)
    | true =>
      refine ⟨fun hfalse => ?_, fun _ => by simp [switchManager, hfind, hdet], fun hnone => ?_,
        ?_, ?_⟩
      · simp [switchManager, hfind, hdet] at hfalse
      · simp at hnone
      · intro m2 hm2 hdet2
        have h2 : m2 = m := by simpa using hm2.symm
        rw [h2, hdet] at hdet2
        exact absurd hdet2 (by simp)
      · intro m2 hm2 _
        simp [switchManager, hfind, hdet]

/-- C7 witness: switching to an undetectable adapter fails and keeps the
previous active adapter; switching to a detectable one succeeds and
activates it. -/
theorem switchManager_failure_preserves_state_witness :
    (switchManager ⟨["nvm", "fnm"], some "nvm"⟩ "volta" (fun _ => true)).2 =
      ⟨["nvm", "fnm"], some "nvm"⟩ ∧
    (switchManager ⟨["nvm", "fnm"], some "nvm"⟩ "fnm" (fun n => n == "fnm")).2.activeManager =
      some "fnm" := by
  refine ⟨?_, ?_⟩
  · exact (switchManager_failure_preserves_state ⟨["nvm", "fnm"], some "nvm"⟩ "volta"
      (fun _ => true)).1 (by decide)
  · exact ((switchManager_failure_preserves_state ⟨["nvm", "fnm"], some "nvm"⟩ "fnm"
      (fun n => n == "fnm")).2.1 (by decide)).1

/-- C5: detectAll uses the fixed priority lists (nvm-windows substituted on
Windows); with no preferred tool it selects the first adapter whose detect
succeeds in priority order; a configured preferred tool whose lookup
matches an adapter that detects successfully is selected outright, and when
the preferred lookup misses or its adapter fails to detect, selection falls
back to priority order. -/
theorem detectAll_priority_order (isWin : Bool) (detects : String → Bool) :
    managerNames false = ["nvm", "fnm", "volta", "mise", "pnpm"] ∧
    managerNames true = ["nvm-windows", "fnm", "volta", "mise", "pnpm"] ∧
    detectAll isWin none detects = (managerNames isWin).find? detects ∧
    (∀ pref m,
      (managerNames isWin).find? (fun n => n == pref || jsIncludes n pref) = some m →
      detects m = true → detectAll isWin (some pref) detects = some m) ∧
    (∀ pref m,
      (managerNames isWin).find? (fun n => n == pref || jsIncludes n pref) = some m →
      detects m = false →
      detectAll isWin (some pref) detects = (managerNames isWin).find? detects) ∧
    (∀ pref,
      (managerNames isWin).find? (fun n => n == pref || jsIncludes n pref) = none →
      detectAll isWin (some pref) detects = (managerNames isWin).find? detects) := by
  refine ⟨rfl, rfl, rfl, ?_, ?_, ?_⟩
  · intro pref m hfind hdet
    simp [detectAll, hfind, hdet]
  · intro pref m hfind hdet
    simp [detectAll, hfind, hdet]
  · intro pref hfind
    simp [detectAll, hfind]

/-- C5 witness: a preferred tool that detects is selected outright; a
preferred tool that fails to detect falls back to the first detecting
adapter in priority order. -/
theorem detectAll_priority_order_witness :
    detectAll false (some "volta") (fun n => n == "volta") = some "volta" ∧
    detectAll false (some "mise") (fun n => n == "volta") = some "volta" := by
  constructor
  · exact (detectAll_priority_order false (fun n => n == "volta")).2.2.2.1
      "volta" "volta" (by decide) (by decide)
  · exact ((detectAll_priority_order false (fun n => n == "volta")).2.2.2.2.1
      "mise" "mise" (by decide) (by decide)).trans (by decide)

/-- C1 counterexample: the nvm adapter applies no deduplication, so a raw
listing that repeats a version line parses to a list with duplicate
entries, contradicting set semantics for every adapter. -/
theorem nvm_installed_versions_duplicates :
    nvmGetInstalledVersions (Except.ok "v20.10.0\nv20.10.0") = ["20.10.0", "20.10.0"] ∧
    ¬ (nvmGetInstalledVersions (Except.ok "v20.10.0\nv20.10.0")).Nodup := by
  exact ⟨by decide, by decide⟩

/-- C1 (amended): the pnpm, fnm and volta adapters deduplicate via a JS Set,
so their installed-version lists never contain duplicates; the nvm,
nvm-windows and mise adapters return the parsed entries without
deduplication, so duplicated raw entries survive into their results. -/
theorem installed_versions_dedup_by_adapter (stdout : String) :
    (pnpmParseInstalled stdout).Nodup ∧
    (fnmParseInstalled stdout).Nodup ∧
    (voltaParseInstalled stdout).Nodup ∧
    nvmWinParseInstalled "18.19.0\n18.19.0" = ["18.19.0", "18.19.0"] ∧
    miseGetInstalledVersions (Except.ok [⟨"20.10.0"⟩, ⟨"20.10.0"⟩]) =
      ["20.10.0", "20.10.0"] := by
  refine ⟨jsSetDedup_nodup _, jsSetDedup_nodup _, jsSetDedup_nodup _, by decide, by decide⟩

/-- C2 counterexample: for nvm-windows with a workspace open, a local-scope
set writes a .nvmrc hint file that a global-scope set does not, so the two
scopes do not produce the same file-system state. -/
theorem nvmwin_scope_differs :
    nvmWinSetVersionEffects "nvm" "20.10.0" Scope.localScope (some "ws") ≠
      nvmWinSetVersionEffects "nvm" "20.10.0" Scope.globalScope (some "ws") ∧
    (nvmWinSetVersionEffects "nvm" "20.10.0" Scope.localScope (some "ws")).filesWritten =
      [("ws/.nvmrc", "20.10.0")] ∧
    (nvmWinSetVersionEffects "nvm" "20.10.0" Scope.globalScope (some "ws")).filesWritten =
      [] := by
  exact ⟨by decide, by decide, by decide⟩

/-- C2 (amended): for the scope-less adapters, a local and a global request
invoke the same external commands; fnm ignores the scope entirely and pnpm
differs only in the side-channel warning, so their file-system effects also
coincide; nvm-windows invokes the same nvm use command for both scopes but
a local request additionally writes a .nvmrc hint file when a workspace is
open (and nothing otherwise). -/
theorem scopeless_adapters_coerce (cmd version : String) (installed : List String)
    (isWin promptContinue : Bool) (workspace : Option String) :
    (pnpmSetVersionEffects cmd version Scope.localScope installed isWin promptContinue).1.commands
      = (pnpmSetVersionEffects cmd version Scope.globalScope installed isWin promptContinue).1.commands ∧
    (pnpmSetVersionEffects cmd version Scope.localScope installed isWin promptContinue).1.filesWritten
      = (pnpmSetVersionEffects cmd version Scope.globalScope installed isWin promptContinue).1.filesWritten ∧
    (pnpmSetVersionEffects cmd version Scope.localScope installed isWin promptContinue).2
      = (pnpmSetVersionEffects cmd version Scope.globalScope installed isWin promptContinue).2 ∧
    fnmSetVersionEffects cmd version Scope.localScope installed workspace
      = fnmSetVersionEffects cmd version Scope.globalScope installed workspace ∧
    (nvmWinSetVersionEffects cmd version Scope.localScope workspace).commands
      = (nvmWinSetVersionEffects cmd version Scope.globalScope workspace).commands ∧
    (nvmWinSetVersionEffects cmd version Scope.globalScope workspace).filesWritten = [] ∧
    (nvmWinSetVersionEffects cmd version Scope.localScope none).filesWritten = [] := by
  cases hwin : isWin && !promptContinue with
  | false =>
    refine ⟨by simp [pnpmSetVersionEffects, hwin], by simp [pnpmSetVersionEffects, hwin],
      by simp [pnpmSetVersionEffects, hwin], rfl, rfl, ?_, rfl⟩
    cases workspace <;> rfl
  | true =>
    refine ⟨by simp [pnpmSetVersionEffects, hwin], by simp [pnpmSetVersionEffects, hwin],
      by simp [pnpmSetVersionEffects, hwin], rfl, rfl, ?_, rfl⟩
    cases workspace <;> rfl

/-- C3 counterexample: the normalization step strips only one leading v, so
it is not idempotent on the string vv20 — one application yields v20, a
second yields 20. -/
theorem normalize_not_idempotent :
    normalizeVersion "vv20" = "v20" ∧
    normalizeVersion (normalizeVersion "vv20") ≠ normalizeVersion "vv20" := by
  exact ⟨by decide, by decide⟩

theorem stripLeadingV_of_head_ne (t : String) (ht : t.toList.head? ≠ some 'v') :
    stripLeadingV t = t := by
  unfold stripLeadingV
  split
  · rename_i rest heq
    exact absurd (by rw [heq]; rfl) ht
  · rfl

/-- C3 (amended): the normalization step strips one leading v from the
trimmed content; it is idempotent on every input whose normalized form is
itself trimmed and does not begin with a further v — in particular on all
well-formed version strings — but not in general. -/
theorem normalize_conditionally_idempotent (s : String)
    (h1 : trimCh (normalizeVersion s).toList = (normalizeVersion s).toList)
    (h2 : (normalizeVersion s).toList.head? ≠ some 'v') :
    normalizeVersion (normalizeVersion s) = normalizeVersion s := by
  have e1 : normalizeVersion (normalizeVersion s) =
      stripLeadingV (String.mk (trimCh (normalizeVersion s).toList)) := rfl
  rw [e1, h1]
  exact stripLeadingV_of_head_ne (normalizeVersion s) h2

/-- C3 witness: normalization is idempotent at the well-formed input
v20.10.0. -/
theorem normalize_conditionally_idempotent_witness :
    normalizeVersion (normalizeVersion "v20.10.0") = normalizeVersion "v20.10.0" :=
  normalize_conditionally_idempotent "v20.10.0" (by decide) (by decide)

/-- C6 counterexample: the mise adapter returns the trimmed stdout of a
successful current-version query without any validation, so empty output
(no version set) and unparseable output are returned verbatim instead of
degrading to a null result. -/
theorem mise_current_returns_garbage :
    miseGetCurrentVersion (Except.ok "") = some "" ∧
    miseGetCurrentVersion (Except.ok "") ≠ none ∧
    miseGetCurrentVersion (Except.ok "mise is not configured") =
      some "mise is not configured" ∧
    startsSemver "mise is not configured" = false := by
  exact ⟨by decide, by decide, by decide, by decide⟩

/-- C6 (amended): getCurrentVersion never throws; a failed command
invocation degrades to null for nvm, mise and fnm; nvm maps the sentinel
outputs none and system to null; fnm validates each candidate and falls
back from the current query to the workspace .node-version file and then
the default alias file, returning null only when every source fails; mise,
by contrast, returns the trimmed stdout of a successful query verbatim
without validation. -/
theorem current_version_error_degradation :
    nvmGetCurrentVersion (Except.error ()) = none ∧
    miseGetCurrentVersion (Except.error ()) = none ∧
    (∀ s, miseGetCurrentVersion (Except.ok s) = some (String.mk (trimCh s.toList))) ∧
    (∀ s, stripLeadingV (String.mk (trimCh s.toList)) = "none" →
      nvmGetCurrentVersion (Except.ok s) = none) ∧
    (∀ s, stripLeadingV (String.mk (trimCh s.toList)) = "system" →
      nvmGetCurrentVersion (Except.ok s) = none) ∧
    fnmGetCurrentVersion (Except.error ()) none none = none ∧
    (∀ s nv al, fnmValidated s = none →
      fnmGetCurrentVersion (Except.ok s) nv al =
        fnmGetCurrentVersion (Except.error ()) nv al) ∧
    (∀ s v nv al, fnmValidated s = some v →
      fnmGetCurrentVersion (Except.ok s) nv al = some v) ∧
    (∀ f al, fnmValidated f = none →
      fnmGetCurrentVersion (Except.error ()) (some f) al =
        fnmGetCurrentVersion (Except.error ()) none al) ∧
    (∀ f v al, fnmValidated f = some v →
      fnmGetCurrentVersion (Except.error ()) (some f) al = some v) ∧
    (∀ a, fnmGetCurrentVersion (Except.error ()) none (some a) = fnmValidated a) := by
  refine ⟨rfl, rfl, fun s => rfl, ?_, ?_, rfl, ?_, ?_, ?_, ?_, ?_⟩
  · intro s h
    simp only [String.toList] at h
    simp [nvmGetCurrentVersion, h]
  · intro s h
    simp only [String.toList] at h
    simp [nvmGetCurrentVersion, h]
  · intro s nv al h
    simp [fnmGetCurrentVersion, h]
  · intro s v nv al h
    simp [fnmGetCurrentVersion, h]
  · intro f al h
    simp [fnmGetCurrentVersion, h]
  · intro f v al h
    simp [fnmGetCurrentVersion, h]
  · intro a
    simp [fnmGetCurrentVersion]

/-- C6 witness: the sentinel nvm output none maps to null, an invalid fnm
current output falls back to a valid .node-version file, and an all-failing
fnm query yields null. -/
theorem current_version_error_degradation_witness :
    nvmGetCurrentVersion (Except.ok "none") = none ∧
    fnmGetCurrentVersion (Except.ok "fnm: no version set") (some "v18.19.0") none =
      some "18.19.0" ∧
    fnmGetCurrentVersion (Except.error ()) none none = none := by
  refine ⟨?_, ?_, ?_⟩
  · exact current_version_error_degradation.2.2.2.1 "none" (by decide)
  · have h1 := current_version_error_degradation.2.2.2.2.2.2.1
      "fnm: no version set" (some "v18.19.0") none (by decide)
    have h2 := current_version_error_degradation.2.2.2.2.2.2.2.2.2.1
      "v18.19.0" "18.19.0" none (by decide)
    exact h1.trans h2
  · exact current_version_error_degradation.2.2.2.2.2.1

/-- C4 counterexample: the nvm adapter performs no PATH probe — in an
environment where nothing exists on disk but the which lookup reports a
hit, nvm detect still fails (while the mise adapter, which implements the
PATH stage, succeeds in the same environment). -/
theorem nvm_detect_skips_path_probe :
    pathOnlyEnv.whichResult = Except.ok "/usr/local/bin/nvm" ∧
    nvmDetect "/home/u/.nvm" "/home/u" pathOnlyEnv =
      { isAvailable := false, command := none } ∧
    (miseDetect "/home/u" pathOnlyEnv).isAvailable = true := by
  exact ⟨rfl, by decide, by decide⟩

/-- C4 (amended): detect never throws and probes the user-configured path
first, then the fixed well-known locations (first hit wins), and — for
every adapter except nvm — the executable search path; the nvm adapter
consults only the first two stages and its result is independent of the
PATH lookup (and is a failure on Windows); when nothing is found the result
is unavailable with no recorded command. -/
theorem detect_probe_order (nvmDir homeDir p q : String) (s : String)
    (env : DetectEnv) (wr wr2 : Except Unit String) :
    nvmDetect nvmDir homeDir { env with whichResult := wr } =
      nvmDetect nvmDir homeDir { env with whichResult := wr2 } ∧
    (env.isWin = true →
      nvmDetect nvmDir homeDir env = { isAvailable := false, command := none }) ∧
    (env.isWin = false → env.customPath = some p → env.existsFile p = true →
      nvmDetect nvmDir homeDir env = { isAvailable := true, command := some p }) ∧
    (env.customPath = some p → env.existsFile p = true →
      miseDetect homeDir env = { isAvailable := true, command := some (quoteCmd p) }) ∧
    (env.customPath = none →
      firstExisting env.existsFile (getMisePaths env.isWin homeDir) = some q →
      miseDetect homeDir env = { isAvailable := true, command := some (quoteCmd q) }) ∧
    (env.isWin = false → env.customPath = none →
      firstExisting env.existsFile (getNvmPaths nvmDir homeDir) = some q →
      nvmDetect nvmDir homeDir env = { isAvailable := true, command := some q }) ∧
    (env.customPath = none →
      firstExisting env.existsFile (getMisePaths env.isWin homeDir) = none →
      env.whichResult = Except.ok s → firstLineOfTrimmed s ≠ "" →
      miseDetect homeDir env =
        { isAvailable := true, command := some (quoteCmd (firstLineOfTrimmed s)) }) ∧
    (env.customPath = none →
      firstExisting env.existsFile (getMisePaths env.isWin homeDir) = none →
      env.whichResult = Except.error () →
      miseDetect homeDir env = { isAvailable := false, command := none }) ∧
    (env.isWin = false → env.customPath = none →
      firstExisting env.existsFile (getNvmPaths nvmDir homeDir) = none →
      nvmDetect nvmDir homeDir env = { isAvailable := false, command := none }) ∧
    (∀ (f : String → Bool) (ps : List String) (r : String),
      firstExisting f ps = some r → f r = true ∧ r ∈ ps) := by
  refine ⟨by cases env; rfl, ?_, ?_, ?_, ?_, ?_, ?_, ?_, ?_, ?_⟩
  · intro hwin
    simp [nvmDetect, hwin]
  · intro hwin hcustom hex
    simp [nvmDetect, hwin, hcustom, hex]
  · intro hcustom hex
    simp [miseDetect, hcustom, hex]
  · intro hcustom hfirst
    simp [miseDetect, hcustom, hfirst]
  · intro hwin hcustom hfirst
    simp [nvmDetect, hwin, hcustom, hfirst]
  · intro hcustom hfirst hwhich hline
    simp [miseDetect, hcustom, hfirst, hwhich, hline]
  · intro hcustom hfirst hwhich
    simp [miseDetect, hcustom, hfirst, hwhich]
  · intro hwin hcustom hfirst
    simp [nvmDetect, hwin, hcustom, hfirst]
  · intro f ps r
    induction ps with
    | nil => intro h; simp [firstExisting] at h
    | cons a as ih =>
      intro h
      rw [firstExisting] at h
      by_cases ha : f a = true
      · rw [if_pos ha] at h
        cases h
        exact ⟨ha, List.mem_cons_self _ _⟩
      · rw [if_neg ha] at h
        rcases ih h with ⟨h1, h2⟩
        exact ⟨h1, List.mem_cons_of_mem a h2⟩

/-- C4 witness: a configured custom mise path that exists is taken and
recorded quoted; an environment with nothing available yields an
unavailable nvm result with no recorded command. -/
theorem detect_probe_order_witness :
    miseDetect "/home/u"
      { isWin := false, customPath := some "/custom/mise",
        existsFile := fun f => f == "/custom/mise",
        whichResult := Except.error () } =
      { isAvailable := true, command := some (quoteCmd "/custom/mise") } ∧
    nvmDetect "/home/u/.nvm" "/home/u"
      { isWin := false, customPath := none, existsFile := fun _ => false,
        whichResult := Except.error () } =
      { isAvailable := false, command := none } := by
  constructor
  · exact (detect_probe_order "/home/u/.nvm" "/home/u" "/custom/mise" "" ""
      { isWin := false, customPath := some "/custom/mise",
        existsFile := fun f => f == "/custom/mise",
        whichResult := Except.error () }
      (Except.error ()) (Except.error ())).2.2.2.1 rfl (by decide)
  · exact (detect_probe_order "/home/u/.nvm" "/home/u" "" "" ""
      { isWin := false, customPath := none, existsFile := fun _ => false,
        whichResult := Except.error () }
      (Except.error ()) (Except.error ())).2.2.2.2.2.2.2.2.1 rfl rfl (by decide)

/-- C8: every adapter's getAvailableVersions returns at most 20 entries and
degrades to the empty list on a failed invocation or fetch; the volta
adapter additionally keeps only releases the index marks as LTS. -/
theorem available_versions_bounded (r : Except Unit String)
    (rv : Except Unit (List NodeRelease)) :
    (nvmGetAvailableVersions r).length ≤ 20 ∧
    (fnmGetAvailableVersions r).length ≤ 20 ∧
    (pnpmGetAvailableVersions r).length ≤ 20 ∧
    (nvmWinGetAvailableVersions r).length ≤ 20 ∧
    (miseGetAvailableVersions r).length ≤ 20 ∧
    (voltaGetAvailableVersions rv).length ≤ 20 ∧
    (r = Except.error () →
      nvmGetAvailableVersions r = [] ∧ fnmGetAvailableVersions r = [] ∧
      pnpmGetAvailableVersions r = [] ∧ nvmWinGetAvailableVersions r = [] ∧
      miseGetAvailableVersions r = []) ∧
    (rv = Except.error () → voltaGetAvailableVersions rv = []) ∧
    (∀ v, v ∈ voltaGetAvailableVersions rv →
      ∃ rs rel, rv = Except.ok rs ∧ rel ∈ rs ∧ rel.lts = true ∧
        v = stripLeadingV rel.version) := by
  refine ⟨?_, ?_, ?_, ?_, ?_, ?_, ?_, ?_, ?_⟩
  · cases r with
    | error e => simp [nvmGetAvailableVersions]
    | ok stdout => simp [nvmGetAvailableVersions, List.length_take_le 20 _]
  · cases r with
    | error e => simp [fnmGetAvailableVersions]
    | ok stdout => simp [fnmGetAvailableVersions, List.length_take_le 20 _]
  · cases r with
    | error e => simp [pnpmGetAvailableVersions]
    | ok stdout => simp [pnpmGetAvailableVersions, List.length_take_le 20 _]
  · cases r with
    | error e => simp [nvmWinGetAvailableVersions]
    | ok stdout => simp [nvmWinGetAvailableVersions, List.length_take_le 20 _]
  · cases r with
    | error e => simp [miseGetAvailableVersions]
    | ok stdout => simp [miseGetAvailableVersions, List.length_take_le 20 _]
  · cases rv with
    | error e => simp [voltaGetAvailableVersions]
    | ok releases => simp [voltaGetAvailableVersions, List.length_take_le 20 _]
  · intro hr
    subst hr
    exact ⟨rfl, rfl, rfl, rfl, rfl⟩
  · intro hrv
    subst hrv
    rfl
  · intro v hv
    cases rv with
    | error e => simp [voltaGetAvailableVersions] at hv
    | ok releases =>
      simp only [voltaGetAvailableVersions] at hv
      have hv2 := (List.take_sublist 20 _).subset hv
      rcases List.mem_map.mp hv2 with ⟨rel, hrel, hveq⟩
      rcases List.mem_filter.mp hrel with ⟨hmem, hlts⟩
      exact ⟨releases, rel, rfl, hmem, hlts, hveq.symm⟩

/-- C8 witness: a failed nvm listing yields the empty list, and a concrete
volta fetch result keeps only the LTS release, v-stripped. -/
theorem available_versions_bounded_witness :
    nvmGetAvailableVersions (Except.error ()) = [] ∧
    (voltaGetAvailableVersions
      (Except.ok [⟨"v20.10.0", true⟩, ⟨"v23.0.0", false⟩])).length ≤ 20 := by
  constructor
  · exact ((available_versions_bounded (Except.error ())
      (Except.error ())).2.2.2.2.2.2.1 rfl).1
  · exact (available_versions_bounded (Except.error ())
      (Except.ok [⟨"v20.10.0", true⟩, ⟨"v23.0.0", false⟩])).2.2.2.2.2.1

end FastNodeSwitcher
